import Mathlib

/-!
Shallow embedding of the TFServingCache proxy layer
(pkg/tfservingproxy/tfservingproxy.go) and proofs about it.

The embedding models:
  - the compiled regular expression tfServingRestURLMatch, written
    regexp.MustCompile of an expression equivalent to
    (?i)^/v1/models/(?P<modelName>[a-z0-9]+)(/versions/(?P<version>[0-9]+))?
    Case folding is modelled for the ASCII range (Char.toLower); the Go
    engine additionally folds a handful of exotic Unicode code points,
    which no claim here depends on.
  - the Prometheus counters forwards_total and invalid_total, each with a
    rest and a grpc label, as four natural-number fields of a Metrics
    record threaded through every operation.
  - the REST handler returned by RestProxy.Serve, the reverse-proxy
    director installed by NewRestProxy, the five supported gRPC methods
    (Predict, Classify, Regress, GetModelMetadata, SessionRun),
    MultiInference, clientForSpec, and GrpcProxy.Listen.
-/

namespace TFServingCache

/-- A Go error value; only its message is relevant here. -/
structure GoError where
  msg : String
deriving DecidableEq

/-- An abstract grpc.ClientConn handle returned by the client provider. -/
structure ClientConn where
  id : Nat
deriving DecidableEq

/-- The wrapped int64 version field of a ModelSpec (google.protobuf.Int64Value). -/
structure Int64Value where
  value : Int
deriving DecidableEq

/-- The TF Serving ModelSpec message: a model name and an optional numeric
version (the wrapper pointer may be nil, modelled as none). -/
structure ModelSpec where
  name : String
  version : Option Int64Value
deriving DecidableEq

/-- Go getter ModelSpec.GetName: returns the empty string on a nil receiver. -/
def specName : Option ModelSpec → String
  | none => ""
  | some s => s.name

/-- Go getters GetVersion().GetValue(): a nil spec or nil wrapper yields 0. -/
def specVersionValue : Option ModelSpec → Int
  | none => 0
  | some s =>
    match s.version with
    | none => 0
    | some v => v.value

/-- Models strconv.FormatInt(v, 10): base-10 decimal rendering of an int64. -/
def formatInt10 (i : Int) : String := toString i

/-- The clientProvider callback held by proxyServiceServer: from a model name
and version string to a connection and an error, in the Go style where the
error slot decides the branch taken. -/
def Provider : Type := String → String → Option ClientConn × Option GoError

/-- The four counter cells used by the proxy: tfservingcache_proxy_forwards_total
and tfservingcache_proxy_invalid_total, each labelled rest or grpc. -/
structure Metrics where
  forwardsRest : Nat
  invalidRest : Nat
  forwardsGrpc : Nat
  invalidGrpc : Nat
deriving DecidableEq

/-- proxyServiceServer.clientForSpec: extracts the name via GetName and the
version via FormatInt(GetVersion().GetValue(), 10), and calls the provider. -/
def clientForSpec (provider : Provider) (spec : Option ModelSpec) :
    Option ClientConn × Option GoError :=
  provider (specName spec) (formatInt10 (specVersionValue spec))

/-! ### gRPC request and response messages

Each request carries its ModelSpec (possibly nil) plus an opaque payload
standing for the remaining message fields; responses are opaque. -/

structure ClassificationRequest where
  modelSpec : Option ModelSpec
  payload : Nat
deriving DecidableEq

structure ClassificationResponse where
  payload : Nat
deriving DecidableEq

structure RegressionRequest where
  modelSpec : Option ModelSpec
  payload : Nat
deriving DecidableEq

structure RegressionResponse where
  payload : Nat
deriving DecidableEq

structure PredictRequest where
  modelSpec : Option ModelSpec
  payload : Nat
deriving DecidableEq

structure PredictResponse where
  payload : Nat
deriving DecidableEq

structure GetModelMetadataRequest where
  modelSpec : Option ModelSpec
  payload : Nat
deriving DecidableEq

structure GetModelMetadataResponse where
  payload : Nat
deriving DecidableEq

structure SessionRunRequest where
  modelSpec : Option ModelSpec
  payload : Nat
deriving DecidableEq

structure SessionRunResponse where
  payload : Nat
deriving DecidableEq

structure MultiInferenceRequest where
  modelSpec : Option ModelSpec
  payload : Nat
deriving DecidableEq

structure MultiInferenceResponse where
  payload : Nat
deriving DecidableEq

/-! ### The five forwarding gRPC methods

Each is translated from its Go body: obtain a client via clientForSpec; on a
non-nil error increment invalid_total(grpc) and return (nil, err); otherwise
invoke the upstream stub on the connection, increment forwards_total(grpc),
and return exactly the upstream pair. The upstream stub (a
PredictionServiceClient or SessionServiceClient bound to the connection) is a
function argument. -/

def Classify
    (provider : Provider)
    (service : Option ClientConn → ClassificationRequest →
      Option ClassificationResponse × Option GoError)
    (req : ClassificationRequest) (m : Metrics) :
    (Option ClassificationResponse × Option GoError) × Metrics :=
  let c := clientForSpec provider req.modelSpec
  match c.2 with
  | some e => ((none, some e), { m with invalidGrpc := m.invalidGrpc + 1 })
  | none =>
    let r := service c.1 req
    (r, { m with forwardsGrpc := m.forwardsGrpc + 1 })

def Regress
    (provider : Provider)
    (service : Option ClientConn → RegressionRequest →
      Option RegressionResponse × Option GoError)
    (req : RegressionRequest) (m : Metrics) :
    (Option RegressionResponse × Option GoError) × Metrics :=
  let c := clientForSpec provider req.modelSpec
  match c.2 with
  | some e => ((none, some e), { m with invalidGrpc := m.invalidGrpc + 1 })
  | none =>
    let r := service c.1 req
    (r, { m with forwardsGrpc := m.forwardsGrpc + 1 })

def Predict
    (provider : Provider)
    (service : Option ClientConn → PredictRequest →
      Option PredictResponse × Option GoError)
    (req : PredictRequest) (m : Metrics) :
    (Option PredictResponse × Option GoError) × Metrics :=
  let c := clientForSpec provider req.modelSpec
  match c.2 with
  | some e => ((none, some e), { m with invalidGrpc := m.invalidGrpc + 1 })
  | none =>
    let r := service c.1 req
    (r, { m with forwardsGrpc := m.forwardsGrpc + 1 })

def GetModelMetadata
    (provider : Provider)
    (service : Option ClientConn → GetModelMetadataRequest →
      Option GetModelMetadataResponse × Option GoError)
    (req : GetModelMetadataRequest) (m : Metrics) :
    (Option GetModelMetadataResponse × Option GoError) × Metrics :=
  let c := clientForSpec provider req.modelSpec
  match c.2 with
  | some e => ((none, some e), { m with invalidGrpc := m.invalidGrpc + 1 })
  | none =>
    let r := service c.1 req
    (r, { m with forwardsGrpc := m.forwardsGrpc + 1 })

def SessionRun
    (provider : Provider)
    (service : Option ClientConn → SessionRunRequest →
      Option SessionRunResponse × Option GoError)
    (req : SessionRunRequest) (m : Metrics) :
    (Option SessionRunResponse × Option GoError) × Metrics :=
  let c := clientForSpec provider req.modelSpec
  match c.2 with
  | some e => ((none, some e), { m with invalidGrpc := m.invalidGrpc + 1 })
  | none =>
    let r := service c.1 req
    (r, { m with forwardsGrpc := m.forwardsGrpc + 1 })

/-- proxyServiceServer.MultiInference: unconditionally returns a nil response
and a fresh error, touching neither the provider nor any counter. The
provider argument mirrors the server struct that carries it. -/
def MultiInference (provider : Provider) (req : MultiInferenceRequest)
    (m : Metrics) :
    (Option MultiInferenceResponse × Option GoError) × Metrics :=
  ((none, some { msg := "MultiInference not supported" }), m)

/-! ### The REST URL matcher

tfServingRestURLMatch, applied with FindStringSubmatch to req.URL.String().
Because the name class is followed in the pattern by a slash (never an
alphanumeric character), the greedy maximal-munch reading below coincides
with the leftmost-first semantics of the Go engine. -/

/-- A character of the class written in the source as a-z0-9 under the
case-insensitive flag: its ASCII lowercasing lies in the lowercase class. -/
def lowerAlnum (c : Char) : Bool :=
  (('a' ≤ c && c ≤ 'z') || ('0' ≤ c && c ≤ '9'))

/-- Membership in the model-name class of the pattern (case-insensitive). -/
def reAlnum (c : Char) : Bool := lowerAlnum c.toLower

/-- A decimal digit (the version class; unaffected by case folding). -/
def lowerDigit (c : Char) : Bool := ('0' ≤ c && c ≤ '9')

/-- Membership in the version class of the pattern. -/
def reDigit (c : Char) : Bool := lowerDigit c.toLower

/-- Match a literal part of the pattern case-insensitively against the front
of the subject; return the remaining subject on success. -/
def matchLit : List Char → List Char → Option (List Char)
  | [], s => some s
  | _ :: _, [] => none
  | p :: ps, c :: cs => if p.toLower == c.toLower then matchLit ps cs else none

/-- The leading literal of the pattern. -/
def vOneModels : List Char := "/v1/models/".toList

/-- The literal of the optional version group. -/
def versionsLit : List Char := "/versions/".toList

/-- FindStringSubmatch of tfServingRestURLMatch on the character list of the
URL: none when the pattern does not match, otherwise the four submatches
(whole match, modelName, the optional versions group, version), with the
empty string for a group that did not participate, as in Go. -/
def findRestMatch (cs : List Char) : Option (List String) :=
  match matchLit vOneModels cs with
  | none => none
  | some r1 =>
    let name := r1.takeWhile reAlnum
    if name.isEmpty then none
    else
      let r2 := r1.dropWhile reAlnum
      let fullNoVer : String := String.mk (cs.take (vOneModels.length + name.length))
      match matchLit versionsLit r2 with
      | none => some [fullNoVer, String.mk name, "", ""]
      | some r3 =>
        let ver := r3.takeWhile reDigit
        if ver.isEmpty then some [fullNoVer, String.mk name, "", ""]
        else
          let grp : String := String.mk (r2.take versionsLit.length ++ ver)
          let full : String := String.mk
            (cs.take (vOneModels.length + name.length + versionsLit.length + ver.length))
          some [full, String.mk name, grp, String.mk ver]

/-- tfServingRestURLMatch.FindStringSubmatch(url). -/
def findStringSubmatch (url : String) : Option (List String) :=
  findRestMatch url.toList

/-- The JSON body written on a missing version: the encoding of the anonymous
struct with fields Status and Message (the encoder also appends a newline,
regarded here as framing rather than body content). -/
def modelVersionErrorBody : String :=
  "\x7b\"Status\":\"Error\",\"Message\":\"Model version must be provided\"\x7d"

/-- What the handler returned by RestProxy.Serve does with one request. -/
inductive RestOutcome where
  /-- Indexing the nil submatch slice panics before anything is written. -/
  | panicked : RestOutcome
  /-- A local response with this status code and body; no forwarding. -/
  | badRequest (status : Nat) (body : String) : RestOutcome
  /-- handler.RestProxy.ServeHTTP was invoked (the request is forwarded). -/
  | forwarded : RestOutcome
deriving DecidableEq

/-- RestProxy.Serve, the wrapper registered on the proxy REST port: match the
URL (a nil match panics at the matches index), answer 400 with the fixed JSON
body and bump invalid_total(rest) when the version submatch is empty, and
otherwise bump forwards_total(rest) and hand the request to the reverse
proxy. -/
def Serve (url : String) (m : Metrics) : RestOutcome × Metrics :=
  match findStringSubmatch url with
  | none => (.panicked, m)
  | some ms =>
    if ms.getD 3 "" = "" then
      (.badRequest 400 modelVersionErrorBody,
        { m with invalidRest := m.invalidRest + 1 })
    else
      (.forwarded, { m with forwardsRest := m.forwardsRest + 1 })

/-- The reverse-proxy director installed by NewRestProxy: re-match the URL
(panicking, i.e. none, when the match slice is nil), call the routing handler
with submatches 1 and 3, and increment invalid_total(rest) in the error
branch and likewise in the success branch, exactly as the source does. -/
def director (url : String) (handler : String → String → Option GoError)
    (m : Metrics) : Option Metrics :=
  match findStringSubmatch url with
  | none => none
  | some ms =>
    match handler (ms.getD 1 "") (ms.getD 3 "") with
    | some _ => some { m with invalidRest := m.invalidRest + 1 }
    | none => some { m with invalidRest := m.invalidRest + 1 }

/-! ### GrpcProxy.Listen

net.Listen and grpc.Server.Serve are external calls. The listener result is
an argument; Serve is modelled from its documented contract (it blocks until
the server is stopped, which in this code happens only through
GrpcProxy.Close calling GracefulStop) as a function producing a ServeEnd
token: Listen can only return nil after that token exists. -/

/-- A TCP listener bound to a port. -/
structure Listener where
  port : Nat
deriving DecidableEq

/-- Evidence that grpc.Server.Serve has returned; in this program the server
is stopped only by Close. -/
inductive ServeEnd where
  | stopped : ServeEnd
deriving DecidableEq

/-- GrpcProxy.Listen: on a TCP listen error, return that error at once with
no server ever serving (no ServeEnd); otherwise register the services, run
Serve to completion, and only then return nil alongside the completion
token. -/
def Listen (tcpListen : Except GoError Listener)
    (serve : Listener → ServeEnd) : Option GoError × Option ServeEnd :=
  match tcpListen with
  | .error e => (some e, none)
  | .ok lis => (none, some (serve lis))

/-! ### Helper equations for the five gRPC methods -/

theorem Classify_err (p : Provider)
    (s : Option ClientConn → ClassificationRequest →
      Option ClassificationResponse × Option GoError)
    (req : ClassificationRequest) (m : Metrics) (e : GoError)
    (h : (clientForSpec p req.modelSpec).2 = some e) :
    Classify p s req m =
      ((none, some e), { m with invalidGrpc := m.invalidGrpc + 1 }) := by
  simp only [Classify]
  rw [h]

theorem Classify_ok (p : Provider)
    (s : Option ClientConn → ClassificationRequest →
      Option ClassificationResponse × Option GoError)
    (req : ClassificationRequest) (m : Metrics)
    (h : (clientForSpec p req.modelSpec).2 = none) :
    Classify p s req m =
      (s (clientForSpec p req.modelSpec).1 req,
        { m with forwardsGrpc := m.forwardsGrpc + 1 }) := by
  simp only [Classify]
  rw [h]

theorem Regress_err (p : Provider)
    (s : Option ClientConn → RegressionRequest →
      Option RegressionResponse × Option GoError)
    (req : RegressionRequest) (m : Metrics) (e : GoError)
    (h : (clientForSpec p req.modelSpec).2 = some e) :
    Regress p s req m =
      ((none, some e), { m with invalidGrpc := m.invalidGrpc + 1 }) := by
  simp only [Regress]
  rw [h]

theorem Regress_ok (p : Provider)
    (s : Option ClientConn → RegressionRequest →
      Option RegressionResponse × Option GoError)
    (req : RegressionRequest) (m : Metrics)
    (h : (clientForSpec p req.modelSpec).2 = none) :
    Regress p s req m =
      (s (clientForSpec p req.modelSpec).1 req,
        { m with forwardsGrpc := m.forwardsGrpc + 1 }) := by
  simp only [Regress]
  rw [h]

theorem Predict_err (p : Provider)
    (s : Option ClientConn → PredictRequest →
      Option PredictResponse × Option GoError)
    (req : PredictRequest) (m : Metrics) (e : GoError)
    (h : (clientForSpec p req.modelSpec).2 = some e) :
    Predict p s req m =
      ((none, some e), { m with invalidGrpc := m.invalidGrpc + 1 }) := by
  simp only [Predict]
  rw [h]

theorem Predict_ok (p : Provider)
    (s : Option ClientConn → PredictRequest →
      Option PredictResponse × Option GoError)
    (req : PredictRequest) (m : Metrics)
    (h : (clientForSpec p req.modelSpec).2 = none) :
    Predict p s req m =
      (s (clientForSpec p req.modelSpec).1 req,
        { m with forwardsGrpc := m.forwardsGrpc + 1 }) := by
  simp only [Predict]
  rw [h]

theorem GetModelMetadata_err (p : Provider)
    (s : Option ClientConn → GetModelMetadataRequest →
      Option GetModelMetadataResponse × Option GoError)
    (req : GetModelMetadataRequest) (m : Metrics) (e : GoError)
    (h : (clientForSpec p req.modelSpec).2 = some e) :
    GetModelMetadata p s req m =
      ((none, some e), { m with invalidGrpc := m.invalidGrpc + 1 }) := by
  simp only [GetModelMetadata]
  rw [h]

theorem GetModelMetadata_ok (p : Provider)
    (s : Option ClientConn → GetModelMetadataRequest →
      Option GetModelMetadataResponse × Option GoError)
    (req : GetModelMetadataRequest) (m : Metrics)
    (h : (clientForSpec p req.modelSpec).2 = none) :
    GetModelMetadata p s req m =
      (s (clientForSpec p req.modelSpec).1 req,
        { m with forwardsGrpc := m.forwardsGrpc + 1 }) := by
  simp only [GetModelMetadata]
  rw [h]

theorem SessionRun_err (p : Provider)
    (s : Option ClientConn → SessionRunRequest →
      Option SessionRunResponse × Option GoError)
    (req : SessionRunRequest) (m : Metrics) (e : GoError)
    (h : (clientForSpec p req.modelSpec).2 = some e) :
    SessionRun p s req m =
      ((none, some e), { m with invalidGrpc := m.invalidGrpc + 1 }) := by
  simp only [SessionRun]
  rw [h]

theorem SessionRun_ok (p : Provider)
    (s : Option ClientConn → SessionRunRequest →
      Option SessionRunResponse × Option GoError)
    (req : SessionRunRequest) (m : Metrics)
    (h : (clientForSpec p req.modelSpec).2 = none) :
    SessionRun p s req m =
      (s (clientForSpec p req.modelSpec).1 req,
        { m with forwardsGrpc := m.forwardsGrpc + 1 }) := by
  simp only [SessionRun]
  rw [h]

/-! ### Theorems -/

/-- Claim C1: a REST request whose URL matches the model path pattern but
carries no version segment is answered locally with status 400 and exactly
the fixed JSON error body, invalid_total(rest) grows by one, forwards_total
(rest) is unchanged, and the reverse proxy is not invoked. -/
theorem rest_missing_version_400 (url : String) (m : Metrics)
    (ms : List String) (hms : findStringSubmatch url = some ms)
    (hv : ms.getD 3 "" = "") :
    Serve url m =
      (RestOutcome.badRequest 400 modelVersionErrorBody,
        { m with invalidRest := m.invalidRest + 1 }) ∧
    (Serve url m).2.forwardsRest = m.forwardsRest ∧
    (Serve url m).1 ≠ RestOutcome.forwarded := by
  have h1 : Serve url m =
      (RestOutcome.badRequest 400 modelVersionErrorBody,
        { m with invalidRest := m.invalidRest + 1 }) := by
    unfold Serve
    rw [hms]
    show (if ms.getD 3 "" = "" then
        (RestOutcome.badRequest 400 modelVersionErrorBody,
          { m with invalidRest := m.invalidRest + 1 })
      else
        (RestOutcome.forwarded,
          { m with forwardsRest := m.forwardsRest + 1 })) = _
    rw [if_pos hv]
  refine ⟨h1, ?_, ?_⟩
  · rw [h1]
  · rw [h1]
    simp

theorem rest_missing_version_400_witness :
    Serve "/v1/models/resnet:predict" ⟨2, 3, 5, 7⟩ =
      (RestOutcome.badRequest 400 modelVersionErrorBody, ⟨2, 4, 5, 7⟩) :=
  (rest_missing_version_400 "/v1/models/resnet:predict" ⟨2, 3, 5, 7⟩
    ["/v1/models/resnet", "resnet", "", ""] (by decide) (by decide)).1

/-- Claim C2: once a request reaches the reverse-proxy director, the director
increments invalid_total(rest) by exactly one whether the routing handler
errors or succeeds, and no branch of it touches forwards_total. -/
theorem rest_director_invalid_both_branches (url : String)
    (handler : String → String → Option GoError) (m : Metrics)
    (ms : List String) (hms : findStringSubmatch url = some ms) :
    director url handler m =
      some { m with invalidRest := m.invalidRest + 1 } ∧
    ∀ m2, director url handler m = some m2 →
      m2.forwardsRest = m.forwardsRest ∧ m2.forwardsGrpc = m.forwardsGrpc := by
  have h1 : director url handler m =
      some { m with invalidRest := m.invalidRest + 1 } := by
    unfold director
    rw [hms]
    show (match handler (ms.getD 1 "") (ms.getD 3 "") with
      | some _ => some { m with invalidRest := m.invalidRest + 1 }
      | none => some { m with invalidRest := m.invalidRest + 1 }) = _
    cases handler (ms.getD 1 "") (ms.getD 3 "") <;> rfl
  refine ⟨h1, ?_⟩
  intro m2 hm2
  rw [h1] at hm2
  injection hm2 with h
  subst h
  exact ⟨rfl, rfl⟩

theorem rest_director_invalid_both_branches_witness :
    director "/v1/models/abc/versions/1" (fun _ _ => none) ⟨1, 2, 3, 4⟩ =
      some ⟨1, 3, 3, 4⟩ :=
  (rest_director_invalid_both_branches "/v1/models/abc/versions/1"
    (fun _ _ => none) ⟨1, 2, 3, 4⟩
    ["/v1/models/abc/versions/1", "abc", "/versions/1", "1"] (by decide)).1

/-- Claim C4 (divergence witness): on a URL that does not match the pattern
at all the submatch slice is nil and the handler panics at the index
expression instead of answering a local 400; no counter moves and nothing is
forwarded. -/
theorem rest_unmatched_url_panics :
    Serve "/v1/models/" ⟨0, 0, 0, 0⟩ = (RestOutcome.panicked, ⟨0, 0, 0, 0⟩) ∧
    findStringSubmatch "/v1/models/" = none := by decide

/-- Claim C5: MultiInference fails identically on every request: nil
response, a non-nil unsupported error, no counter change, and a result
independent of the client provider (the provider is never consulted). -/
theorem multi_inference_unsupported (p q : Provider)
    (req : MultiInferenceRequest) (m : Metrics) :
    MultiInference p req m =
      ((none, some { msg := "MultiInference not supported" }), m) ∧
    MultiInference p req m = MultiInference q req m :=
  ⟨rfl, rfl⟩

/-- Claim C9: Listen yields a non-nil error exactly when the TCP listen
fails, in which case no server ever runs (no ServeEnd exists); on a
successful listen it returns nil only together with the token proving that
Serve has completed, i.e. that the server was stopped. -/
theorem grpc_listen_blocking (tcp : Except GoError Listener)
    (serve : Listener → ServeEnd) :
    (∀ e, tcp = .error e → Listen tcp serve = (some e, none)) ∧
    (∀ lis, tcp = .ok lis → Listen tcp serve = (none, some (serve lis))) ∧
    ((∃ e, (Listen tcp serve).1 = some e) ↔ ∃ e, tcp = .error e) := by
  refine ⟨?_, ?_, ?_⟩
  · intro e he
    subst he
    rfl
  · intro lis h
    subst h
    rfl
  · cases tcp with
    | error e => simp [Listen]
    | ok lis => simp [Listen]

theorem grpc_listen_blocking_witness :
    Listen (Except.ok ⟨8100⟩) (fun _ => ServeEnd.stopped) =
      (none, some ServeEnd.stopped) :=
  (grpc_listen_blocking (Except.ok ⟨8100⟩) (fun _ => ServeEnd.stopped)).2.1
    ⟨8100⟩ rfl

/-- Claim C6: every gRPC method hands the client provider exactly the name
from GetName and the base-10 rendering of the numeric version from
GetVersion().GetValue(): each method depends on the provider only through
its value at that pair, clientForSpec calls the provider at exactly that
pair, and an absent spec or absent wrapper renders as the string 0. -/
theorem grpc_spec_extraction :
    (∀ (p₁ p₂ : Provider) s (req : PredictRequest) (m : Metrics),
      p₁ (specName req.modelSpec) (formatInt10 (specVersionValue req.modelSpec)) =
        p₂ (specName req.modelSpec) (formatInt10 (specVersionValue req.modelSpec)) →
      Predict p₁ s req m = Predict p₂ s req m) ∧
    (∀ (p₁ p₂ : Provider) s (req : ClassificationRequest) (m : Metrics),
      p₁ (specName req.modelSpec) (formatInt10 (specVersionValue req.modelSpec)) =
        p₂ (specName req.modelSpec) (formatInt10 (specVersionValue req.modelSpec)) →
      Classify p₁ s req m = Classify p₂ s req m) ∧
    (∀ (p₁ p₂ : Provider) s (req : RegressionRequest) (m : Metrics),
      p₁ (specName req.modelSpec) (formatInt10 (specVersionValue req.modelSpec)) =
        p₂ (specName req.modelSpec) (formatInt10 (specVersionValue req.modelSpec)) →
      Regress p₁ s req m = Regress p₂ s req m) ∧
    (∀ (p₁ p₂ : Provider) s (req : GetModelMetadataRequest) (m : Metrics),
      p₁ (specName req.modelSpec) (formatInt10 (specVersionValue req.modelSpec)) =
        p₂ (specName req.modelSpec) (formatInt10 (specVersionValue req.modelSpec)) →
      GetModelMetadata p₁ s req m = GetModelMetadata p₂ s req m) ∧
    (∀ (p₁ p₂ : Provider) s (req : SessionRunRequest) (m : Metrics),
      p₁ (specName req.modelSpec) (formatInt10 (specVersionValue req.modelSpec)) =
        p₂ (specName req.modelSpec) (formatInt10 (specVersionValue req.modelSpec)) →
      SessionRun p₁ s req m = SessionRun p₂ s req m) ∧
    (∀ (p : Provider) (spec : Option ModelSpec),
      clientForSpec p spec =
        p (specName spec) (formatInt10 (specVersionValue spec))) ∧
    (∀ name : String, specVersionValue (some ⟨name, none⟩) = 0) ∧
    specVersionValue none = 0 ∧
    formatInt10 0 = "0" := by
  refine ⟨?_, ?_, ?_, ?_, ?_, fun p spec => rfl, fun name => rfl, rfl, rfl⟩
  · intro p₁ p₂ s req m h
    simp only [Predict, clientForSpec, h]
  · intro p₁ p₂ s req m h
    simp only [Classify, clientForSpec, h]
  · intro p₁ p₂ s req m h
    simp only [Regress, clientForSpec, h]
  · intro p₁ p₂ s req m h
    simp only [GetModelMetadata, clientForSpec, h]
  · intro p₁ p₂ s req m h
    simp only [SessionRun, clientForSpec, h]

theorem grpc_spec_extraction_witness :
    Predict
      (fun n v => if n == "m1" && v == "0"
        then (some ⟨1⟩, none) else (none, some ⟨"x"⟩))
      (fun _ _ => (some ⟨8⟩, none)) ⟨some ⟨"m1", none⟩, 0⟩ ⟨0, 0, 0, 0⟩ =
    Predict (fun _ _ => (some ⟨1⟩, none))
      (fun _ _ => (some ⟨8⟩, none)) ⟨some ⟨"m1", none⟩, 0⟩ ⟨0, 0, 0, 0⟩ :=
  grpc_spec_extraction.1
    (fun n v => if n == "m1" && v == "0"
      then (some ⟨1⟩, none) else (none, some ⟨"x"⟩))
    (fun _ _ => (some ⟨1⟩, none))
    (fun _ _ => (some ⟨8⟩, none)) ⟨some ⟨"m1", none⟩, 0⟩ ⟨0, 0, 0, 0⟩
    (by decide)

/-- Claim C7: for each of the five forwarding methods, when the provider
yields a usable client, the response-error pair handed back to the caller is
exactly the pair produced by the upstream invocation on that connection,
unmodified. -/
theorem grpc_pass_through :
    (∀ (p : Provider) s (req : PredictRequest) (m : Metrics),
      (clientForSpec p req.modelSpec).2 = none →
      (Predict p s req m).1 = s (clientForSpec p req.modelSpec).1 req) ∧
    (∀ (p : Provider) s (req : ClassificationRequest) (m : Metrics),
      (clientForSpec p req.modelSpec).2 = none →
      (Classify p s req m).1 = s (clientForSpec p req.modelSpec).1 req) ∧
    (∀ (p : Provider) s (req : RegressionRequest) (m : Metrics),
      (clientForSpec p req.modelSpec).2 = none →
      (Regress p s req m).1 = s (clientForSpec p req.modelSpec).1 req) ∧
    (∀ (p : Provider) s (req : GetModelMetadataRequest) (m : Metrics),
      (clientForSpec p req.modelSpec).2 = none →
      (GetModelMetadata p s req m).1 =
        s (clientForSpec p req.modelSpec).1 req) ∧
    (∀ (p : Provider) s (req : SessionRunRequest) (m : Metrics),
      (clientForSpec p req.modelSpec).2 = none →
      (SessionRun p s req m).1 = s (clientForSpec p req.modelSpec).1 req) := by
  refine ⟨?_, ?_, ?_, ?_, ?_⟩
  · intro p s req m h
    rw [Predict_ok p s req m h]
  · intro p s req m h
    rw [Classify_ok p s req m h]
  · intro p s req m h
    rw [Regress_ok p s req m h]
  · intro p s req m h
    rw [GetModelMetadata_ok p s req m h]
  · intro p s req m h
    rw [SessionRun_ok p s req m h]

theorem grpc_pass_through_witness :
    (Predict (fun _ _ => (some ⟨5⟩, none))
      (fun _ _ => (some ⟨42⟩, some ⟨"upstream failed"⟩))
      ⟨some ⟨"m1", some ⟨2⟩⟩, 9⟩ ⟨0, 0, 0, 0⟩).1 =
      (some ⟨42⟩, some ⟨"upstream failed"⟩) :=
  grpc_pass_through.1 (fun _ _ => (some ⟨5⟩, none))
    (fun _ _ => (some ⟨42⟩, some ⟨"upstream failed"⟩))
    ⟨some ⟨"m1", some ⟨2⟩⟩, 9⟩ ⟨0, 0, 0, 0⟩ rfl

/-- Claim C8: every forwarded request bumps forwards_total for its protocol
by exactly one: a matching REST request with a version segment increments the
rest counter by one as it is handed to the reverse proxy, and each of the
five gRPC methods increments the grpc counter by one whenever the provider
succeeds, leaving every other counter cell unchanged. -/
theorem forward_counts_once :
    (∀ (url : String) (m : Metrics) (ms : List String),
      findStringSubmatch url = some ms → ms.getD 3 "" ≠ "" →
      Serve url m =
        (RestOutcome.forwarded,
          { m with forwardsRest := m.forwardsRest + 1 })) ∧
    (∀ (p : Provider) s (req : PredictRequest) (m : Metrics),
      (clientForSpec p req.modelSpec).2 = none →
      (Predict p s req m).2 =
        { m with forwardsGrpc := m.forwardsGrpc + 1 }) ∧
    (∀ (p : Provider) s (req : ClassificationRequest) (m : Metrics),
      (clientForSpec p req.modelSpec).2 = none →
      (Classify p s req m).2 =
        { m with forwardsGrpc := m.forwardsGrpc + 1 }) ∧
    (∀ (p : Provider) s (req : RegressionRequest) (m : Metrics),
      (clientForSpec p req.modelSpec).2 = none →
      (Regress p s req m).2 =
        { m with forwardsGrpc := m.forwardsGrpc + 1 }) ∧
    (∀ (p : Provider) s (req : GetModelMetadataRequest) (m : Metrics),
      (clientForSpec p req.modelSpec).2 = none →
      (GetModelMetadata p s req m).2 =
        { m with forwardsGrpc := m.forwardsGrpc + 1 }) ∧
    (∀ (p : Provider) s (req : SessionRunRequest) (m : Metrics),
      (clientForSpec p req.modelSpec).2 = none →
      (SessionRun p s req m).2 =
        { m with forwardsGrpc := m.forwardsGrpc + 1 }) := by
  refine ⟨?_, ?_, ?_, ?_, ?_, ?_⟩
  · intro url m ms hms hv
    unfold Serve
    rw [hms]
    show (if ms.getD 3 "" = "" then
        (RestOutcome.badRequest 400 modelVersionErrorBody,
          { m with invalidRest := m.invalidRest + 1 })
      else
        (RestOutcome.forwarded,
          { m with forwardsRest := m.forwardsRest + 1 })) = _
    rw [if_neg hv]
  · intro p s req m h
    rw [Predict_ok p s req m h]
  · intro p s req m h
    rw [Classify_ok p s req m h]
  · intro p s req m h
    rw [Regress_ok p s req m h]
  · intro p s req m h
    rw [GetModelMetadata_ok p s req m h]
  · intro p s req m h
    rw [SessionRun_ok p s req m h]

theorem forward_counts_once_witness :
    Serve "/v1/models/resnet/versions/2:predict" ⟨0, 0, 0, 0⟩ =
      (RestOutcome.forwarded, ⟨1, 0, 0, 0⟩) :=
  forward_counts_once.1 "/v1/models/resnet/versions/2:predict" ⟨0, 0, 0, 0⟩
    ["/v1/models/resnet/versions/2", "resnet", "/versions/2", "2"]
    (by decide) (by decide)

/-- Claim C10: for each of the five forwarding methods, a provider error is
returned to the caller verbatim with a nil response, invalid_total(grpc)
grows by one, forwards_total is untouched, and the upstream stub is never
invoked (the result does not depend on it). -/
theorem grpc_provider_error_path :
    (∀ (p : Provider) s₁ s₂ (req : PredictRequest) (m : Metrics)
      (e : GoError), (clientForSpec p req.modelSpec).2 = some e →
      Predict p s₁ req m =
        ((none, some e), { m with invalidGrpc := m.invalidGrpc + 1 }) ∧
      Predict p s₁ req m = Predict p s₂ req m ∧
      (Predict p s₁ req m).2.forwardsGrpc = m.forwardsGrpc) ∧
    (∀ (p : Provider) s₁ s₂ (req : ClassificationRequest) (m : Metrics)
      (e : GoError), (clientForSpec p req.modelSpec).2 = some e →
      Classify p s₁ req m =
        ((none, some e), { m with invalidGrpc := m.invalidGrpc + 1 }) ∧
      Classify p s₁ req m = Classify p s₂ req m ∧
      (Classify p s₁ req m).2.forwardsGrpc = m.forwardsGrpc) ∧
    (∀ (p : Provider) s₁ s₂ (req : RegressionRequest) (m : Metrics)
      (e : GoError), (clientForSpec p req.modelSpec).2 = some e →
      Regress p s₁ req m =
        ((none, some e), { m with invalidGrpc := m.invalidGrpc + 1 }) ∧
      Regress p s₁ req m = Regress p s₂ req m ∧
      (Regress p s₁ req m).2.forwardsGrpc = m.forwardsGrpc) ∧
    (∀ (p : Provider) s₁ s₂ (req : GetModelMetadataRequest) (m : Metrics)
      (e : GoError), (clientForSpec p req.modelSpec).2 = some e →
      GetModelMetadata p s₁ req m =
        ((none, some e), { m with invalidGrpc := m.invalidGrpc + 1 }) ∧
      GetModelMetadata p s₁ req m = GetModelMetadata p s₂ req m ∧
      (GetModelMetadata p s₁ req m).2.forwardsGrpc = m.forwardsGrpc) ∧
    (∀ (p : Provider) s₁ s₂ (req : SessionRunRequest) (m : Metrics)
      (e : GoError), (clientForSpec p req.modelSpec).2 = some e →
      SessionRun p s₁ req m =
        ((none, some e), { m with invalidGrpc := m.invalidGrpc + 1 }) ∧
      SessionRun p s₁ req m = SessionRun p s₂ req m ∧
      (SessionRun p s₁ req m).2.forwardsGrpc = m.forwardsGrpc) := by
  refine ⟨?_, ?_, ?_, ?_, ?_⟩
  · intro p s₁ s₂ req m e h
    have h1 := Predict_err p s₁ req m e h
    have h2 := Predict_err p s₂ req m e h
    exact ⟨h1, h1.trans h2.symm, by rw [h1]⟩
  · intro p s₁ s₂ req m e h
    have h1 := Classify_err p s₁ req m e h
    have h2 := Classify_err p s₂ req m e h
    exact ⟨h1, h1.trans h2.symm, by rw [h1]⟩
  · intro p s₁ s₂ req m e h
    have h1 := Regress_err p s₁ req m e h
    have h2 := Regress_err p s₂ req m e h
    exact ⟨h1, h1.trans h2.symm, by rw [h1]⟩
  · intro p s₁ s₂ req m e h
    have h1 := GetModelMetadata_err p s₁ req m e h
    have h2 := GetModelMetadata_err p s₂ req m e h
    exact ⟨h1, h1.trans h2.symm, by rw [h1]⟩
  · intro p s₁ s₂ req m e h
    have h1 := SessionRun_err p s₁ req m e h
    have h2 := SessionRun_err p s₂ req m e h
    exact ⟨h1, h1.trans h2.symm, by rw [h1]⟩

theorem grpc_provider_error_path_witness :
    Predict (fun _ _ => (none, some ⟨"no node"⟩))
      (fun _ _ => (some ⟨77⟩, none))
      ⟨some ⟨"m1", some ⟨3⟩⟩, 0⟩ ⟨0, 0, 0, 0⟩ =
      ((none, some ⟨"no node"⟩), ⟨0, 0, 0, 1⟩) :=
  (grpc_provider_error_path.1 (fun _ _ => (none, some ⟨"no node"⟩))
    (fun _ _ => (some ⟨77⟩, none)) (fun _ _ => (none, none))
    ⟨some ⟨"m1", some ⟨3⟩⟩, 0⟩ ⟨0, 0, 0, 0⟩ ⟨"no node"⟩ rfl).1


/-! ### Characterization of the URL matcher (support for the acceptance claim) -/

/-- Core lemma for case-insensitive literal matching: for a literal made of
characters fixed under ASCII lowercasing, matchLit succeeds exactly on
subjects whose lowered front equals the literal. -/
theorem matchLit_iff (lit : List Char) :
    (∀ a ∈ lit, a.toLower = a) →
    ∀ (s r : List Char), (matchLit lit s = some r ↔
      ∃ s₀, s₀.map Char.toLower = lit ∧ s = s₀ ++ r) := by
  induction lit with
  | nil =>
    intro _ s r
    simp only [matchLit]
    constructor
    · intro h
      injection h with h
      exact ⟨[], rfl, by simp [h]⟩
    · rintro ⟨s₀, h0, hs⟩
      have h1 : s₀ = [] := List.map_eq_nil_iff.mp h0
      subst h1
      simp at hs
      rw [hs]
  | cons a as ih =>
    intro hfix s r
    have hfa : a.toLower = a := hfix a (by simp)
    have ih2 := ih (fun b hb => hfix b (by simp [hb]))
    cases s with
    | nil =>
      simp only [matchLit]
      constructor
      · intro h
        exact absurd h (by simp)
      · rintro ⟨s₀, h0, hs⟩
        rcases List.append_eq_nil.mp hs.symm with ⟨h1, _⟩
        subst h1
        simp at h0
    | cons c cs =>
      simp only [matchLit]
      cases hb : (a.toLower == c.toLower) with
      | false =>
        simp only [Bool.false_eq_true, if_false]
        constructor
        · intro h
          exact absurd h (by simp)
        · rintro ⟨s₀, h0, hs⟩
          cases s₀ with
          | nil => simp at h0
          | cons d s₁ =>
            simp only [List.map_cons, List.cons.injEq] at h0
            simp only [List.cons_append, List.cons.injEq] at hs
            rw [← hs.1] at h0
            rw [hfa, h0.1] at hb
            simp at hb
      | true =>
        simp only [if_true]
        have hac : a = c.toLower := by
          have := beq_iff_eq.mp hb
          rw [hfa] at this
          exact this
        rw [ih2 cs r]
        constructor
        · rintro ⟨s₁, h1, h2⟩
          exact ⟨c :: s₁, by simp [h1, hac.symm], by simp [h2]⟩
        · rintro ⟨s₀, h0, hs⟩
          cases s₀ with
          | nil => simp at h0
          | cons d s₁ =>
            simp only [List.map_cons, List.cons.injEq] at h0
            simp only [List.cons_append, List.cons.injEq] at hs
            exact ⟨s₁, h0.2, hs.2⟩

/-- takeWhile and dropWhile across an append whose right part starts with a
failing character. -/
theorem takeWhile_append_eq (f : Char → Bool) :
    ∀ (n r : List Char), (∀ a ∈ n, f a = true) →
      (r = [] ∨ ∃ c t, r = c :: t ∧ f c = false) →
      (n ++ r).takeWhile f = n ∧ (n ++ r).dropWhile f = r := by
  intro n
  induction n with
  | nil =>
    intro r _ hr
    rcases hr with h | ⟨c, t, hct, hc⟩
    · subst h; simp
    · subst hct
      simp [List.takeWhile_cons, List.dropWhile_cons, hc]
  | cons a nn ih =>
    intro r hn hr
    have ha := hn a (by simp)
    have ihr := ih r (fun b hb => hn b (by simp [hb])) hr
    simp [List.takeWhile_cons, List.dropWhile_cons, ha, ihr.1, ihr.2]


theorem vOneModels_lower_fixed : ∀ a ∈ vOneModels, a.toLower = a := by decide

theorem versionsLit_lower_fixed : ∀ a ∈ versionsLit, a.toLower = a := by decide

theorem mk_cons_ne_empty (c : Char) (l : List Char) : String.mk (c :: l) ≠ "" := by
  intro h
  have h2 := congrArg String.data h
  simp at h2

theorem Serve_eq_forwarded (url : String) (m : Metrics) (ms : List String)
    (hm : findStringSubmatch url = some ms) (hv : ¬ (ms.getD 3 "" = "")) :
    Serve url m = (RestOutcome.forwarded,
      { m with forwardsRest := m.forwardsRest + 1 }) := by
  unfold Serve
  rw [hm]
  show (if ms.getD 3 "" = "" then
      (RestOutcome.badRequest 400 modelVersionErrorBody,
        { m with invalidRest := m.invalidRest + 1 })
    else
      (RestOutcome.forwarded,
        { m with forwardsRest := m.forwardsRest + 1 })) = _
  rw [if_neg hv]

theorem Serve_eq_badRequest (url : String) (m : Metrics) (ms : List String)
    (hm : findStringSubmatch url = some ms) (hv : ms.getD 3 "" = "") :
    Serve url m = (RestOutcome.badRequest 400 modelVersionErrorBody,
      { m with invalidRest := m.invalidRest + 1 }) := by
  unfold Serve
  rw [hm]
  show (if ms.getD 3 "" = "" then
      (RestOutcome.badRequest 400 modelVersionErrorBody,
        { m with invalidRest := m.invalidRest + 1 })
    else
      (RestOutcome.forwarded,
        { m with forwardsRest := m.forwardsRest + 1 })) = _
  rw [if_pos hv]

theorem Serve_eq_panicked (url : String) (m : Metrics)
    (hm : findStringSubmatch url = none) :
    Serve url m = (RestOutcome.panicked, m) := by
  unfold Serve
  rw [hm]

/-- Serve forwards exactly when the matcher succeeds with a nonempty version
submatch. -/
theorem serve_forwarded_iff (url : String) (m : Metrics) :
    (Serve url m).1 = RestOutcome.forwarded ↔
      ∃ ms, findStringSubmatch url = some ms ∧ ¬ (ms.getD 3 "" = "") := by
  constructor
  · intro h
    cases hm : findStringSubmatch url with
    | none =>
      rw [Serve_eq_panicked url m hm] at h
      exact absurd h (by simp)
    | some ms =>
      by_cases hv : ms.getD 3 "" = ""
      · rw [Serve_eq_badRequest url m ms hm hv] at h
        exact absurd h (by simp)
      · exact ⟨ms, rfl, hv⟩
  · rintro ⟨ms, hm, hv⟩
    rw [Serve_eq_forwarded url m ms hm hv]

/-- Inversion: a successful match with nonempty version submatch pins down
the shape of the run of the matcher. -/
theorem findRestMatch_inv (cs : List Char) (ms : List String)
    (hm : findRestMatch cs = some ms) (hv : ¬ (ms.getD 3 "" = "")) :
    ∃ r1 r3, matchLit vOneModels cs = some r1 ∧
      r1.takeWhile reAlnum ≠ [] ∧
      matchLit versionsLit (r1.dropWhile reAlnum) = some r3 ∧
      r3.takeWhile reDigit ≠ [] := by
  simp only [findRestMatch] at hm
  split at hm
  · exact absurd hm (by simp)
  next r1 heq1 =>
    split at hm
    · exact absurd hm (by simp)
    next hne =>
      split at hm
      next heq3none =>
        exfalso
        apply hv
        injection hm with hm2
        rw [← hm2]
        rfl
      next r3 heq3 =>
        split at hm
        next hvempty =>
          exfalso
          apply hv
          injection hm with hm2
          rw [← hm2]
          rfl
        next hvne =>
          injection hm with hm2
          refine ⟨r1, r3, heq1, ?_, heq3, ?_⟩
          · intro hnil
            rw [hnil] at hne
            simp at hne
          · intro hnil
            rw [hnil] at hvne
            simp at hvne


/-- Positive run of the matcher from the shape of its input. -/
theorem findRestMatch_pos (cs r1 r3 : List Char)
    (h1 : matchLit vOneModels cs = some r1)
    (h2 : (r1.takeWhile reAlnum).isEmpty = false)
    (h3 : matchLit versionsLit (r1.dropWhile reAlnum) = some r3)
    (h4 : (r3.takeWhile reDigit).isEmpty = false) :
    ∃ full grp, findRestMatch cs =
      some [full, String.mk (r1.takeWhile reAlnum), grp,
        String.mk (r3.takeWhile reDigit)] := by
  refine ⟨String.mk (cs.take (vOneModels.length + (r1.takeWhile reAlnum).length +
      versionsLit.length + (r3.takeWhile reDigit).length)),
    String.mk ((r1.dropWhile reAlnum).take versionsLit.length ++
      r3.takeWhile reDigit), ?_⟩
  simp only [findRestMatch, h1, h2, h3, h4]
  simp


/-- Claim C3 (amended): the REST proxy forwards exactly those URLs that
match, ASCII-case-insensitively, the pattern /v1/models/ followed by a
nonempty run of letters of either case or digits, then /versions/ and at
least one digit; stated over the lowercased character list of the URL. A
matching URL lacking the version segment is answered 400, not forwarded. -/
theorem rest_accept_characterization (url : String) (m : Metrics) :
    (Serve url m).1 = RestOutcome.forwarded ↔
      ∃ (name : List Char) (d : Char) (t : List Char),
        url.toList.map Char.toLower =
          vOneModels ++ (name ++ (versionsLit ++ d :: t)) ∧
        name ≠ [] ∧ name.all lowerAlnum = true ∧ lowerDigit d = true := by
  rw [serve_forwarded_iff]
  constructor
  · rintro ⟨ms, hm, hv⟩
    obtain ⟨r1, r3, h1, hne, h3, hvne⟩ := findRestMatch_inv url.toList ms hm hv
    obtain ⟨p, hp, hcs⟩ :=
      (matchLit_iff vOneModels vOneModels_lower_fixed url.toList r1).mp h1
    obtain ⟨q, hq, hr2⟩ :=
      (matchLit_iff versionsLit versionsLit_lower_fixed
        (r1.dropWhile reAlnum) r3).mp h3
    have hsplit : r1.takeWhile reAlnum ++ r1.dropWhile reAlnum = r1 :=
      List.takeWhile_append_dropWhile reAlnum r1
    obtain ⟨d0, t0, hr3, hd0⟩ : ∃ d0 t0, r3 = d0 :: t0 ∧ reDigit d0 = true := by
      cases hr3c : r3 with
      | nil =>
        rw [hr3c] at hvne
        simp at hvne
      | cons d0 t0 =>
        refine ⟨d0, t0, rfl, ?_⟩
        by_contra hd
        rw [hr3c, List.takeWhile_cons] at hvne
        rw [Bool.not_eq_true] at hd
        rw [hd] at hvne
        simp at hvne
    refine ⟨(r1.takeWhile reAlnum).map Char.toLower, d0.toLower,
      t0.map Char.toLower, ?_, ?_, ?_, ?_⟩
    · have hr1 : r1 = r1.takeWhile reAlnum ++ (q ++ (d0 :: t0)) := by
        conv_lhs => rw [← hsplit]
        rw [hr2, hr3]
      have hcs2 : url.toList =
          p ++ (r1.takeWhile reAlnum ++ (q ++ (d0 :: t0))) := by
        rw [hcs]
        rw [← hr1]
      rw [hcs2]
      simp only [List.map_append, List.map_cons, hp, hq]
    · simp [hne]
    · rw [List.all_map]
      exact List.all_eq_true.mpr fun x hx => List.mem_takeWhile_imp hx
    · exact hd0
  · rintro ⟨name, d, t, hmap, hnne, hall, hd⟩
    obtain ⟨p, rest1, hcs1, hp, hrest1⟩ := List.map_eq_append_iff.mp hmap
    obtain ⟨n0, rest2, hcs2, hn0, hrest2⟩ := List.map_eq_append_iff.mp hrest1
    obtain ⟨q0, rest3, hcs3, hq0, hrest3⟩ := List.map_eq_append_iff.mp hrest2
    obtain ⟨d0, t0, hcs4, hd0, ht0⟩ := List.map_eq_cons_iff.mp hrest3
    have hn0all : ∀ a ∈ n0, reAlnum a = true := by
      intro a ha
      have : a.toLower ∈ name := by
        rw [← hn0]
        exact List.mem_map.mpr ⟨a, ha, rfl⟩
      exact List.all_eq_true.mp hall a.toLower this
    have hn0ne : n0 ≠ [] := by
      intro h
      rw [h] at hn0
      exact hnne (by rw [← hn0]; rfl)
    obtain ⟨qc, q1, hq0c, hqc⟩ : ∃ qc q1, q0 = qc :: q1 ∧ qc.toLower = '/' := by
      have hvl : versionsLit = '/' :: "versions/".toList := by decide
      rw [hvl] at hq0
      obtain ⟨qc, q1, hsplit2, hqc, _⟩ := List.map_eq_cons_iff.mp hq0
      exact ⟨qc, q1, hsplit2, hqc⟩
    have hqcAl : reAlnum qc = false := by
      show lowerAlnum qc.toLower = false
      rw [hqc]
      decide
    have e1 : matchLit vOneModels url.toList =
        some (n0 ++ (q0 ++ (d0 :: t0))) := by
      refine (matchLit_iff vOneModels vOneModels_lower_fixed url.toList _).mpr
        ⟨p, hp, ?_⟩
      rw [hcs1, hcs2, hcs3, hcs4]
    have etw := takeWhile_append_eq reAlnum n0 (q0 ++ (d0 :: t0)) hn0all
      (Or.inr ⟨qc, q1 ++ (d0 :: t0), by rw [hq0c]; rfl, hqcAl⟩)
    have e5 : matchLit versionsLit (q0 ++ (d0 :: t0)) = some (d0 :: t0) :=
      (matchLit_iff versionsLit versionsLit_lower_fixed _ _).mpr ⟨q0, hq0, rfl⟩
    have hd0dig : reDigit d0 = true := by
      show lowerDigit d0.toLower = true
      rw [hd0]
      exact hd
    have e6 : (d0 :: t0).takeWhile reDigit = d0 :: t0.takeWhile reDigit := by
      rw [List.takeWhile_cons, hd0dig]
      simp
    obtain ⟨full, grp, hfrm⟩ := findRestMatch_pos url.toList
      (n0 ++ (q0 ++ (d0 :: t0))) (d0 :: t0) e1
      (by rw [etw.1]; simp [hn0ne])
      (by rw [etw.2]; exact e5)
      (by rw [e6]; simp)
    refine ⟨[full, String.mk ((n0 ++ (q0 ++ (d0 :: t0))).takeWhile reAlnum),
      grp, String.mk ((d0 :: t0).takeWhile reDigit)], hfrm, ?_⟩
    show ¬ (String.mk ((d0 :: t0).takeWhile reDigit) = "")
    rw [e6]
    exact mk_cons_ne_empty d0 (t0.takeWhile reDigit)

/-- Claim C3 counterexample: the regex carries the case-insensitive flag, so
the URL /v1/models/ABC/versions/1, whose model-name segment has characters
outside lowercase a-z0-9, is forwarded; and a URL matching the pattern with
the version segment absent is not forwarded (it is answered 400). -/
theorem rest_accept_charset_cex :
    (Serve "/v1/models/ABC/versions/1" ⟨0, 0, 0, 0⟩).1 =
      RestOutcome.forwarded ∧
    "ABC".toList.all lowerAlnum = false ∧
    findStringSubmatch "/v1/models/abc" =
      some ["/v1/models/abc", "abc", "", ""] ∧
    (Serve "/v1/models/abc" ⟨0, 0, 0, 0⟩).1 ≠ RestOutcome.forwarded := by
  decide

theorem rest_accept_characterization_witness :
    ∃ (name : List Char) (d : Char) (t : List Char),
      "/v1/models/res50/versions/2:predict".toList.map Char.toLower =
        vOneModels ++ (name ++ (versionsLit ++ d :: t)) ∧
      name ≠ [] ∧ name.all lowerAlnum = true ∧ lowerDigit d = true :=
  (rest_accept_characterization "/v1/models/res50/versions/2:predict"
    ⟨0, 0, 0, 0⟩).mp (by decide)

end TFServingCache
